import Mathlib

/-
Verification development for the metrics-extension configuration core
(internal/config/config.go): the typed schema, the four lookup helpers
(GetGraph, GetRow, GetDashBoard, GetApp) and the two-phase load pipeline
(JSON-tag decode, then viper/mapstructure environment overlay).

Modelling conventions:
* machine strings/bools/ints are Lean String/Bool/Int;
* Go nil pointers are Option.none; Go slices are Lean lists
  (nil pointers stored inside slices are modelled as zero values);
* the opaque TLS configuration block of the provider descriptor is
  outside the modelled core (it is an external pass-through type);
* the generic document tree produced by encoding/json is the inductive
  Json below, with numbers modelled as integers.
-/

namespace ConfigModel

/-- Generic structured-document tree, the result of parsing the raw
configuration bytes with the generic JSON parser. -/
inductive Json where
  | null
  | b (v : Bool)
  | num (v : Int)
  | str (v : String)
  | arr (items : List Json)
  | obj (fields : List (String × Json))

/-- Threshold entity of the schema (all string leaves). -/
structure Threshold where
  Key : String
  Name : String
  Color : String
  Value : String
  Unit : String
  QueryExpression : String
  deriving DecidableEq

/-- Graph entity of the schema. -/
structure Graph where
  Name : String
  Title : String
  Description : String
  GraphType : String
  MetricName : String
  ColorSchemes : List String
  Thresholds : List Threshold
  QueryExpression : String
  YAxisUnit : String
  ValueRounding : Int
  deriving DecidableEq

/-- Row entity of the schema. -/
structure Row where
  Name : String
  Title : String
  Tab : String
  Graphs : List Graph
  deriving DecidableEq

/-- Dashboard entity of the schema. -/
structure Dashboard where
  Name : String
  GroupKind : String
  RefreshRate : String
  Tabs : List String
  Rows : List Row
  ProviderType : String
  Intervals : List String
  deriving DecidableEq

/-- Application entity of the schema. -/
structure Application where
  Name : String
  Default : Bool
  DefaultDashboard : Option Dashboard
  Dashboards : List Dashboard
  deriving DecidableEq

/-- Backend connection descriptor (the opaque TLS block is out of scope). -/
structure provider where
  Name : String
  Address : String
  Default : Bool
  deriving DecidableEq

/-- Per-backend root: ordered application list plus one provider descriptor. -/
structure MetricsConfigProvider where
  Applications : List Application
  Provider : provider
  deriving DecidableEq

/-- Root configuration: one optional MetricsConfigProvider per backend kind. -/
structure O11yConfig where
  Prometheus : Option MetricsConfigProvider
  Wavefront : Option MetricsConfigProvider
  deriving DecidableEq

/-- Go zero value of Threshold. -/
def Threshold.zero : Threshold := ⟨"", "", "", "", "", ""⟩

/-- Go zero value of Graph. -/
def Graph.zero : Graph := ⟨"", "", "", "", "", [], [], "", "", 0⟩

/-- Go zero value of Row. -/
def Row.zero : Row := ⟨"", "", "", []⟩

/-- Go zero value of Dashboard. -/
def Dashboard.zero : Dashboard := ⟨"", "", "", [], [], "", []⟩

/-- Go zero value of Application (the value GetApp falls back to). -/
def Application.zero : Application := ⟨"", false, none, []⟩

/-- Go zero value of the provider descriptor. -/
def provider.zero : provider := ⟨"", "", false⟩

/-- Go zero value of MetricsConfigProvider. -/
def MetricsConfigProvider.zero : MetricsConfigProvider := ⟨[], provider.zero⟩

/-- Go zero value of O11yConfig (both backends unset). -/
def O11yConfig.zero : O11yConfig := ⟨none, none⟩

/-! ## Lookup layer (GetGraph, GetRow, GetDashBoard, GetApp) -/

/-- Loop body of Row.GetGraph: first graph with matching name, else nil. -/
def getGraphGo (name : String) : List Graph → Option Graph
  | [] => none
  | g :: rest => if g.Name = name then some g else getGraphGo name rest

/-- Row.GetGraph from the source: scan r.Graphs, return first name match, else nil. -/
def Row.GetGraph (r : Row) (name : String) : Option Graph :=
  getGraphGo name r.Graphs

/-- Loop body of Dashboard.GetRow. -/
def getRowGo (name : String) : List Row → Option Row
  | [] => none
  | row :: rest => if row.Name = name then some row else getRowGo name rest

/-- Dashboard.GetRow from the source: first row with matching name, else nil. -/
def Dashboard.GetRow (d : Dashboard) (name : String) : Option Row :=
  getRowGo name d.Rows

/-- Loop body of Application.GetDashBoard. -/
def getDashGo (groupKind : String) : List Dashboard → Option Dashboard
  | [] => none
  | dash :: rest => if dash.GroupKind = groupKind then some dash else getDashGo groupKind rest

/-- Application.GetDashBoard from the source: first dashboard whose group-kind
matches, else the application's DefaultDashboard pointer. -/
def Application.GetDashBoard (a : Application) (groupKind : String) : Option Dashboard :=
  match getDashGo groupKind a.Dashboards with
  | some dash => some dash
  | none => a.DefaultDashboard

/-- Loop body of MetricsConfigProvider.GetApp: return on exact name match,
otherwise keep overwriting the running default with every default-flagged
application seen, and return the running default after the scan. -/
def getAppGo (name : String) : List Application → Application → Application
  | [], defaultApp => defaultApp
  | app :: rest, defaultApp =>
    if app.Name = name then app
    else getAppGo name rest (if app.Default then app else defaultApp)

/-- MetricsConfigProvider.GetApp from the source, starting from the zero
Application as the running default. -/
def MetricsConfigProvider.GetApp (p : MetricsConfigProvider) (name : String) : Application :=
  getAppGo name p.Applications Application.zero

/-! ## Specification-side descriptions of the lookups (from the spec text) -/

/-- Spec wording of GetApp: first exact name match; otherwise the LAST
default-flagged application in scan order; otherwise the zero Application. -/
def getAppSpec (p : MetricsConfigProvider) (name : String) : Application :=
  match p.Applications.find? (fun a => a.Name == name) with
  | some a => a
  | none => ((p.Applications.filter (fun a => a.Default)).getLast?).getD Application.zero

/-- Spec wording of GetDashBoard: first dashboard with the requested
group-kind, else the fallback dashboard (nil when unset). -/
def getDashBoardSpec (a : Application) (groupKind : String) : Option Dashboard :=
  match a.Dashboards.find? (fun d => d.GroupKind == groupKind) with
  | some d => some d
  | none => a.DefaultDashboard

/-! ## Decode machinery of LoadConfigs

Phase 1 parses the raw bytes generically and decodes the resulting tree
into the schema with mapstructure using the JSON struct tags (strict
typing, zero initial value).  Phase 2 re-reads the same bytes through
viper (which lowercases map keys and overlays environment variables on
the leaf paths it knows) and decodes the resulting settings tree with
mapstructure using the mapstructure struct tags (weakly typed input,
decoding on top of the phase-1 result).

The phase flag p selects the naming convention and typing mode:
p = false is the document decode (json tags, strict), p = true is the
override-name decode (mapstructure tags, weakly typed). -/

/-- Select the tag for the current phase: json tag for the document
decode, mapstructure tag for the override-name decode. -/
def tagSel (p : Bool) (jsonTag msTag : String) : String :=
  if p then msTag else jsonTag

/-- ASCII lower-casing of one character.  The field names and tags handled
by this pipeline are ASCII, where Go's Unicode case mapping and simple case
folding coincide with the ASCII table. -/
def lowerChar (c : Char) : Char :=
  if 65 <= c.toNat && c.toNat <= 90 then Char.ofNat (c.toNat + 32) else c

/-- ASCII upper-casing of one character. -/
def upperChar (c : Char) : Char :=
  if 97 <= c.toNat && c.toNat <= 122 then Char.ofNat (c.toNat - 32) else c

/-- strings.ToLower on the ASCII keys of this pipeline. -/
def lowerStr (s : String) : String := ⟨s.data.map lowerChar⟩

/-- strings.ToUpper on the ASCII keys of this pipeline. -/
def upperStr (s : String) : String := ⟨s.data.map upperChar⟩

/-- mapstructure field lookup: an exact key match anywhere in the map wins,
otherwise the first case-insensitive match is used. -/
def lookupEntry (fields : List (String × Json)) (tag : String) : Option (String × Json) :=
  match fields.find? (fun kv => kv.1 == tag) with
  | some e => some e
  | none => fields.find? (fun kv => lowerStr kv.1 == lowerStr tag)

/-- Value of a field found by mapstructure's lookup. -/
def lookupField (fields : List (String × Json)) (tag : String) : Option Json :=
  (lookupEntry fields tag).map (fun kv => kv.2)

/-- mapstructure decode into a string destination.  Strict mode accepts
only strings; weakly typed mode also coerces bools and numbers.  A nil
value and a decode error both leave the destination untouched. -/
def decodeString (weak : Bool) (init : String) : Json → String × Bool
  | .null => (init, false)
  | .str s => (s, false)
  | .b v => if weak then (if v then ("1", false) else ("0", false)) else (init, true)
  | .num n => if weak then (toString n, false) else (init, true)
  | .arr _ => (init, true)
  | .obj _ => (init, true)

/-- Truth strings accepted by strconv.ParseBool. -/
def parseBoolStr (s : String) : Option Bool :=
  if s == "1" || s == "t" || s == "T" || s == "TRUE" || s == "true" || s == "True" then
    some true
  else if s == "0" || s == "f" || s == "F" || s == "FALSE" || s == "false" || s == "False" then
    some false
  else none

/-- mapstructure decode into a bool destination. -/
def decodeBool (weak : Bool) (init : Bool) : Json → Bool × Bool
  | .null => (init, false)
  | .b v => (v, false)
  | .num n => if weak then (decide (n ≠ 0), false) else (init, true)
  | .str s =>
    if weak then
      if s == "" then (false, false)
      else
        match parseBoolStr s with
        | some v => (v, false)
        | none => (init, true)
    else (init, true)
  | .arr _ => (init, true)
  | .obj _ => (init, true)

/-- mapstructure decode into an int destination. -/
def decodeInt (weak : Bool) (init : Int) : Json → Int × Bool
  | .null => (init, false)
  | .num n => (n, false)
  | .b v => if weak then (if v then (1, false) else (0, false)) else (init, true)
  | .str s =>
    if weak then
      match s.toInt? with
      | some n => (n, false)
      | none => (init, true)
    else (init, true)
  | .arr _ => (init, true)
  | .obj _ => (init, true)

/-- mapstructure slice decode body: data elements are decoded on top of the
existing elements index by index (growing with zero values as needed);
existing elements beyond the data length are kept. -/
def mergeList (dec : α → Json → α × Bool) (zeroElem : α) :
    List α → List Json → List α × Bool
  | rest, [] => (rest, false)
  | [], j :: js =>
    let r := dec zeroElem j
    let rs := mergeList dec zeroElem [] js
    (r.1 :: rs.1, r.2 || rs.2)
  | x :: xs, j :: js =>
    let r := dec x j
    let rs := mergeList dec zeroElem xs js
    (r.1 :: rs.1, r.2 || rs.2)

/-- mapstructure decode into a slice destination.  Strict mode accepts only
arrays; weakly typed mode turns an empty map into an empty slice and lifts
any other non-array value into a one-element slice. -/
def decodeListJ (dec : α → Json → α × Bool) (zeroElem : α) (weak : Bool)
    (init : List α) : Json → List α × Bool
  | .null => (init, false)
  | .arr items => mergeList dec zeroElem init items
  | .obj [] => if weak then ([], false) else (init, true)
  | .obj (f :: fs) =>
    if weak then mergeList dec zeroElem init [Json.obj (f :: fs)] else (init, true)
  | .b v => if weak then mergeList dec zeroElem init [Json.b v] else (init, true)
  | .num n => if weak then mergeList dec zeroElem init [Json.num n] else (init, true)
  | .str s => if weak then mergeList dec zeroElem init [Json.str s] else (init, true)

/-- mapstructure decode through a pointer: nil data leaves the pointer
untouched, a decode error leaves it untouched, otherwise the value is
decoded on top of the pointed-to value (allocated fresh when nil). -/
def decodeOpt (dec : α → Json → α × Bool) (zeroElem : α) (init : Option α) :
    Json → Option α × Bool
  | .null => (init, false)
  | j =>
    let r := dec (init.getD zeroElem) j
    if r.2 then (init, true) else (some r.1, false)

/-- Decode one struct field: an absent key leaves the field untouched. -/
def decField (dec : α → Json → α × Bool) (fields : List (String × Json))
    (tag : String) (init : α) : α × Bool :=
  match lookupField fields tag with
  | none => (init, false)
  | some j => dec init j

/-- Decode a Threshold struct. -/
def decodeThreshold (p : Bool) (init : Threshold) : Json → Threshold × Bool
  | .null => (init, false)
  | .obj fs =>
    let f1 := decField (decodeString p) fs (tagSel p "key" "KEY") init.Key
    let f2 := decField (decodeString p) fs (tagSel p "name" "NAME") init.Name
    let f3 := decField (decodeString p) fs (tagSel p "color" "COLOR") init.Color
    let f4 := decField (decodeString p) fs (tagSel p "value" "VALUE") init.Value
    let f5 := decField (decodeString p) fs (tagSel p "unit" "UNIT") init.Unit
    let f6 := decField (decodeString p) fs
      (tagSel p "queryExpression" "QUERY_EXPRESSION") init.QueryExpression
    (⟨f1.1, f2.1, f3.1, f4.1, f5.1, f6.1⟩,
      f1.2 || f2.2 || f3.2 || f4.2 || f5.2 || f6.2)
  | _ => (init, true)

/-- Decode a Graph struct. -/
def decodeGraph (p : Bool) (init : Graph) : Json → Graph × Bool
  | .null => (init, false)
  | .obj fs =>
    let f1 := decField (decodeString p) fs (tagSel p "name" "NAME") init.Name
    let f2 := decField (decodeString p) fs (tagSel p "title" "TITLE") init.Title
    let f3 := decField (decodeString p) fs (tagSel p "description" "DESCRIPTION") init.Description
    let f4 := decField (decodeString p) fs (tagSel p "graphType" "GRAPH_TYPE") init.GraphType
    let f5 := decField (decodeString p) fs (tagSel p "metricName" "METRIC_NAME") init.MetricName
    let f6 := decField (decodeListJ (decodeString p) "" p) fs
      (tagSel p "colorSchemes" "COLOR_SCHEMES") init.ColorSchemes
    let f7 := decField (decodeListJ (decodeThreshold p) Threshold.zero p) fs
      (tagSel p "thresholds" "THRESHOLDS") init.Thresholds
    let f8 := decField (decodeString p) fs
      (tagSel p "queryExpression" "QUERY_EXPRESSION") init.QueryExpression
    let f9 := decField (decodeString p) fs (tagSel p "yAxisUnit" "Y_AXIS_UNIT") init.YAxisUnit
    let f10 := decField (decodeInt p) fs
      (tagSel p "valueRounding" "VALUE_ROUNDING") init.ValueRounding
    (⟨f1.1, f2.1, f3.1, f4.1, f5.1, f6.1, f7.1, f8.1, f9.1, f10.1⟩,
      f1.2 || f2.2 || f3.2 || f4.2 || f5.2 || f6.2 || f7.2 || f8.2 || f9.2 || f10.2)
  | _ => (init, true)

/-- Decode a Row struct (nil graph pointers are modelled as zero graphs). -/
def decodeRow (p : Bool) (init : Row) : Json → Row × Bool
  | .null => (init, false)
  | .obj fs =>
    let f1 := decField (decodeString p) fs (tagSel p "name" "NAME") init.Name
    let f2 := decField (decodeString p) fs (tagSel p "title" "TITLE") init.Title
    let f3 := decField (decodeString p) fs (tagSel p "tab" "TAB") init.Tab
    let f4 := decField (decodeListJ (decodeGraph p) Graph.zero p) fs
      (tagSel p "graphs" "GRAPHS") init.Graphs
    (⟨f1.1, f2.1, f3.1, f4.1⟩, f1.2 || f2.2 || f3.2 || f4.2)
  | _ => (init, true)

/-- Decode a Dashboard struct. -/
def decodeDashboard (p : Bool) (init : Dashboard) : Json → Dashboard × Bool
  | .null => (init, false)
  | .obj fs =>
    let f1 := decField (decodeString p) fs (tagSel p "name" "NAME") init.Name
    let f2 := decField (decodeString p) fs (tagSel p "groupKind" "GROUP_KIND") init.GroupKind
    let f3 := decField (decodeString p) fs (tagSel p "refreshRate" "REFRESH_RATE") init.RefreshRate
    let f4 := decField (decodeListJ (decodeString p) "" p) fs
      (tagSel p "tabs" "TABS") init.Tabs
    let f5 := decField (decodeListJ (decodeRow p) Row.zero p) fs
      (tagSel p "rows" "ROWS") init.Rows
    let f6 := decField (decodeString p) fs
      (tagSel p "providerType" "PROVIDER_TYPE") init.ProviderType
    let f7 := decField (decodeListJ (decodeString p) "" p) fs
      (tagSel p "intervals" "INTERVALS") init.Intervals
    (⟨f1.1, f2.1, f3.1, f4.1, f5.1, f6.1, f7.1⟩,
      f1.2 || f2.2 || f3.2 || f4.2 || f5.2 || f6.2 || f7.2)
  | _ => (init, true)

/-- Decode an Application struct. -/
def decodeApplication (p : Bool) (init : Application) : Json → Application × Bool
  | .null => (init, false)
  | .obj fs =>
    let f1 := decField (decodeString p) fs (tagSel p "name" "NAME") init.Name
    let f2 := decField (decodeBool p) fs (tagSel p "default" "DEFAULT") init.Default
    let f3 := decField (decodeOpt (decodeDashboard p) Dashboard.zero) fs
      (tagSel p "defaultDashboard" "DEFAULT_DASHBOARD") init.DefaultDashboard
    let f4 := decField (decodeListJ (decodeDashboard p) Dashboard.zero p) fs
      (tagSel p "dashboards" "DASHBOARDS") init.Dashboards
    (⟨f1.1, f2.1, f3.1, f4.1⟩, f1.2 || f2.2 || f3.2 || f4.2)
  | _ => (init, true)

/-- Decode the provider descriptor struct. -/
def decodeProvider (p : Bool) (init : provider) : Json → provider × Bool
  | .null => (init, false)
  | .obj fs =>
    let f1 := decField (decodeString p) fs (tagSel p "name" "NAME") init.Name
    let f2 := decField (decodeString p) fs (tagSel p "address" "ADDRESS") init.Address
    let f3 := decField (decodeBool p) fs (tagSel p "default" "DEFAULT") init.Default
    (⟨f1.1, f2.1, f3.1⟩, f1.2 || f2.2 || f3.2)
  | _ => (init, true)

/-- Decode a MetricsConfigProvider struct. -/
def decodeMCP (p : Bool) (init : MetricsConfigProvider) : Json → MetricsConfigProvider × Bool
  | .null => (init, false)
  | .obj fs =>
    let f1 := decField (decodeListJ (decodeApplication p) Application.zero p) fs
      (tagSel p "applications" "APPLICATIONS") init.Applications
    let f2 := decField (decodeProvider p) fs (tagSel p "provider" "PROVIDER") init.Provider
    (⟨f1.1, f2.1⟩, f1.2 || f2.2)
  | _ => (init, true)

/-- Decode the root O11yConfig struct. -/
def decodeO11y (p : Bool) (init : O11yConfig) : Json → O11yConfig × Bool
  | .null => (init, false)
  | .obj fs =>
    let f1 := decField (decodeOpt (decodeMCP p) MetricsConfigProvider.zero) fs
      (tagSel p "prometheus" "PROMETHEUS") init.Prometheus
    let f2 := decField (decodeOpt (decodeMCP p) MetricsConfigProvider.zero) fs
      (tagSel p "wavefront" "WAVEFRONT") init.Wavefront
    (⟨f1.1, f2.1⟩, f1.2 || f2.2)
  | _ => (init, true)

/-! ## Viper: key lowercasing and environment overlay -/

mutual
/-- viper lowercases the keys of every nested map when reading the config
(values stored inside arrays are kept as parsed). -/
def viperLower : Json → Json
  | .obj fs => .obj (viperLowerFields fs)
  | .null => .null
  | .b v => .b v
  | .num n => .num n
  | .str s => .str s
  | .arr xs => .arr xs

/-- Key-lowercasing over the entries of one map. -/
def viperLowerFields : List (String × Json) → List (String × Json)
  | [] => []
  | (k, v) :: rest => (lowerStr k, viperLower v) :: viperLowerFields rest
end

mutual
/-- viper's flattenAndMergeMap: AllKeys flattens the config map into dotted
leaf paths, and an empty nested map contributes no keys, so AllSettings
silently drops empty-map subtrees (an entry whose value flattens away
vanishes with it); arrays are leaves and are kept as parsed. -/
def pruneEmpty : Json → Json
  | .obj fs => .obj (pruneEmptyFields fs)
  | .null => .null
  | .b v => .b v
  | .num n => .num n
  | .str s => .str s
  | .arr xs => .arr xs

/-- Flattening over the entries of one map: entries whose value flattens to
the empty map are dropped. -/
def pruneEmptyFields : List (String × Json) → List (String × Json)
  | [] => []
  | (k, v) :: rest =>
    match pruneEmpty v with
    | .obj [] => pruneEmptyFields rest
    | v2 => (k, v2) :: pruneEmptyFields rest
end

/-- Whether a tree is the empty map. -/
def isEmptyObj : Json → Bool
  | .obj [] => true
  | _ => false

mutual
/-- No nested map reachable along map spines is empty (maps inside arrays
are opaque to viper's flattening and are not constrained): on such trees
the flattening pass drops nothing. -/
def noEmptyObjB : Json → Bool
  | .obj fs => noEmptyObjFieldsB fs
  | .null => true
  | .b _ => true
  | .num _ => true
  | .str _ => true
  | .arr _ => true

/-- The no-empty-map condition over the entries of one map. -/
def noEmptyObjFieldsB : List (String × Json) → Bool
  | [] => true
  | (_, v) :: rest => ! isEmptyObj v && noEmptyObjB v && noEmptyObjFieldsB rest
end

/-- The ambient process environment, as a name-to-value mapping. -/
abbrev Env := List (String × String)

/-- Environment variable lookup. -/
def envLookup (env : Env) (name : String) : Option String :=
  (env.find? (fun kv => kv.1 == name)).map (fun kv => kv.2)

/-- Environment variable name for a config key path: path segments joined
with the double-underscore separator, uppercased (viper's env key replacer
maps the dot delimiter to a double underscore before uppercasing). -/
def pathEnvKey : List String → String
  | [] => ""
  | [k] => upperStr k
  | k :: rest => upperStr k ++ "__" ++ pathEnvKey rest

mutual
/-- viper's AllSettings with AutomaticEnv: every leaf key known from the
config document is looked up in the environment first (maps are interior
nodes — the flattening pass has already removed empty ones — while arrays
and scalars are leaves), and the environment value — a raw string —
replaces the document value when present. -/
def overlayEnv (env : Env) (path : List String) : Json → Json
  | .obj fs => .obj (overlayEnvFields env path fs)
  | leaf =>
    match envLookup env (pathEnvKey path) with
    | some s => .str s
    | none => leaf

/-- Environment overlay over the entries of one map. -/
def overlayEnvFields (env : Env) (path : List String) :
    List (String × Json) → List (String × Json)
  | [] => []
  | (k, v) :: rest => (k, overlayEnv env (path ++ [k]) v) :: overlayEnvFields env path rest
end

/-- The settings tree viper.Unmarshal decodes from: the lowercased document
tree, flattened (empty-map subtrees dropped), with environment values
overlaid on its leaf paths. -/
def viperSettings (j : Json) (env : Env) : Json :=
  overlayEnv env [] (pruneEmpty (viperLower j))

/-- The error surfaced by a failing load: the generic parse error (with its
message), the document decode error, or the overlay decode error. -/
inductive LoadError where
  | parse (msg : String)
  | jsonDecode
  | viperDecode
  deriving DecidableEq

/-- LoadConfigs: parse the raw bytes generically (a non-object top level
fails the generic parse into a string-keyed map), decode with json tags
into the zero config, then read the same bytes through viper and decode
the env-overlaid settings with mapstructure tags on top of the phase-1
result.  Each failing step returns the config value as it stands together
with that step's error. -/
def loadConfigs (parsed : Except String Json) (env : Env) : O11yConfig × Option LoadError :=
  match parsed with
  | .error e => (O11yConfig.zero, some (.parse e))
  | .ok j =>
    match j with
    | .obj fs =>
      let r1 := decodeO11y false O11yConfig.zero (Json.obj fs)
      if r1.2 then (r1.1, some .jsonDecode)
      else
        let r2 := decodeO11y true r1.1 (viperSettings (Json.obj fs) env)
        if r2.2 then (r2.1, some .viperDecode) else (r2.1, none)
    | _ => (O11yConfig.zero, some (.parse "json: cannot unmarshal value into map"))

/-- The document decode phase in isolation (§4.2): generic parse plus
json-tag decode from the zero config. -/
def docDecodePhase (j : Json) : O11yConfig × Bool :=
  decodeO11y false O11yConfig.zero j

/-- The override-name decode phase in isolation (§4.3 step b): generic
parse, viper key-lowercasing, no environment, mapstructure-tag decode from
the zero config. -/
def overrideDecodePhase (j : Json) : O11yConfig × Bool :=
  decodeO11y true O11yConfig.zero (viperSettings j [])

/-- The document decode phase (generic parse into a string-keyed map plus
json-tag schema decode) fails on this tree: a non-object top level or a
json-tag decode error. -/
def docDecodeFails : Json → Bool
  | .obj fs => (decodeO11y false O11yConfig.zero (.obj fs)).2
  | _ => true

/-- Whether a load error originates in the document decode phase
(generic parse or json-tag decode) rather than the overlay phase. -/
def isDocError : Option LoadError → Bool
  | some (.parse _) => true
  | some .jsonDecode => true
  | _ => false


def doc4 : Json :=
  .obj [("prometheus", .obj [("applications", .arr [.obj [("name", .str "a")]])]),
        ("wavefront", .num 5)]


def dash8 : Dashboard := { Dashboard.zero with Name := "d8", GroupKind := "deployment" }

def row8 : Row := { Row.zero with Name := "r8" }


/-! ## Field agreement between the two decode phases

The json tag and the mapstructure tag of most fields coincide up to
letter case, and on those fields the two naming conventions address the
same document entry.  The relations below compare two decoded values on
exactly those matching-tag fields, leaving the underscore-tagged fields
(groupKind, refreshRate, providerType, graphType, metricName,
colorSchemes, queryExpression, yAxisUnit, valueRounding,
defaultDashboard) unconstrained. -/

/-- The keys of one map level are pairwise distinct modulo letter case
(the shape a map produced by a JSON object without duplicate keys has). -/
def nodupLowerB : List (String × Json) → Bool
  | [] => true
  | (k, _) :: rest =>
    !(rest.any (fun kv => lowerStr kv.1 == lowerStr k)) && nodupLowerB rest

mutual
/-- Well-formed document tree: every map, including those nested inside
arrays, has keys pairwise distinct modulo letter case. -/
def wfJson : Json → Bool
  | .obj fs => nodupLowerB fs && wfFieldsRec fs
  | .arr xs => wfArrRec xs
  | .null => true
  | .b _ => true
  | .num _ => true
  | .str _ => true

/-- Well-formedness of all values of one map level. -/
def wfFieldsRec : List (String × Json) → Bool
  | [] => true
  | (_, v) :: rest => wfJson v && wfFieldsRec rest

/-- Well-formedness of all elements of one array. -/
def wfArrRec : List Json → Bool
  | [] => true
  | x :: xs => wfJson x && wfArrRec xs
end

def app9 : Application :=
  { Name := "demo"
    Default := false
    DefaultDashboard := some { Dashboard.zero with Name := "fallback" }
    Dashboards := [{ Dashboard.zero with Name := "unset-kind" }] }


/-! ## Lookup lemmas -/

theorem getGraphGo_eq_find? (name : String) (l : List Graph) :
    getGraphGo name l = l.find? (fun g => g.Name == name) := by
  induction l with
  | nil => rfl
  | cons g rest ih =>
    by_cases h : g.Name = name
    · rw [getGraphGo, if_pos h, List.find?_cons_of_pos _ (by simp [h])]
    · rw [getGraphGo, if_neg h, List.find?_cons_of_neg _ (by simp [h]), ih]

theorem getRowGo_eq_find? (name : String) (l : List Row) :
    getRowGo name l = l.find? (fun r => r.Name == name) := by
  induction l with
  | nil => rfl
  | cons r rest ih =>
    by_cases h : r.Name = name
    · rw [getRowGo, if_pos h, List.find?_cons_of_pos _ (by simp [h])]
    · rw [getRowGo, if_neg h, List.find?_cons_of_neg _ (by simp [h]), ih]

theorem getDashGo_eq_find? (gk : String) (l : List Dashboard) :
    getDashGo gk l = l.find? (fun d => d.GroupKind == gk) := by
  induction l with
  | nil => rfl
  | cons d rest ih =>
    by_cases h : d.GroupKind = gk
    · rw [getDashGo, if_pos h, List.find?_cons_of_pos _ (by simp [h])]
    · rw [getDashGo, if_neg h, List.find?_cons_of_neg _ (by simp [h]), ih]

theorem getLastD_irrel (x : α) (xs : List α) (d e : α) :
    ((x :: xs).getLast?).getD d = ((x :: xs).getLast?).getD e := by
  induction xs generalizing x with
  | nil => rfl
  | cons y ys ih => rw [List.getLast?_cons_cons]; exact ih y

theorem getLastD_cons (a : α) (l : List α) (d : α) :
    ((a :: l).getLast?).getD d = (l.getLast?).getD a := by
  cases l with
  | nil => rfl
  | cons b m => rw [List.getLast?_cons_cons]; exact getLastD_irrel b m d a

theorem getAppGo_eq (name : String) (l : List Application) (acc : Application) :
    getAppGo name l acc =
      match l.find? (fun a => a.Name == name) with
      | some a => a
      | none => ((l.filter (fun a => a.Default)).getLast?).getD acc := by
  induction l generalizing acc with
  | nil => rfl
  | cons a rest ih =>
    by_cases h : a.Name = name
    · rw [getAppGo, if_pos h, List.find?_cons_of_pos _ (by simp [h])]
    · rw [getAppGo, if_neg h, ih, List.find?_cons_of_neg _ (by simp [h])]
      cases hf : rest.find? (fun x => x.Name == name) with
      | some b => rfl
      | none =>
        simp only []
        by_cases hd : a.Default
        · rw [if_pos hd, List.filter_cons_of_pos (by simp [hd]), getLastD_cons]
        · rw [if_neg hd, List.filter_cons_of_neg (by simp [hd])]

theorem mem_of_getLast?_eq_some {l : List α} {x : α} (h : l.getLast? = some x) : x ∈ l := by
  induction l with
  | nil => simp at h
  | cons a rest ih =>
    cases rest with
    | nil => simp at h; simp [h]
    | cons b m =>
      rw [List.getLast?_cons_cons] at h
      exact List.mem_cons_of_mem a (ih h)

/-! ## Claim theorems about the lookup layer -/

/-- C1: GetApp scans the ordered application list front-to-back and returns
the first application whose name equals the requested name, short-circuiting
on an exact match; only if no name matches does it return the LAST
default-flagged application in scan order; if no application is flagged
default either, it returns the zero-valued Application. -/
theorem c1_getApp_precedence (p : MetricsConfigProvider) (name : String) :
    p.GetApp name = getAppSpec p name := by
  unfold MetricsConfigProvider.GetApp getAppSpec
  rw [getAppGo_eq]

/-- C5: GetDashBoard returns the first dashboard in the application's ordered
list whose group-kind equals the requested one; if none matches it returns the
application's fallback (default) dashboard, which is nil when unset. -/
theorem c5_getDashBoard_first_match_else_fallback (a : Application) (gk : String) :
    a.GetDashBoard gk = getDashBoardSpec a gk := by
  unfold Application.GetDashBoard getDashBoardSpec
  rw [getDashGo_eq_find?]

/-- C6: GetRow returns the first row with matching name, or nil when none
matches; GetGraph returns the first graph with matching name, or nil when
none matches. -/
theorem c6_getRow_getGraph_first_match (d : Dashboard) (r : Row) (n m : String) :
    d.GetRow n = d.Rows.find? (fun row => row.Name == n) ∧
    r.GetGraph m = r.Graphs.find? (fun g => g.Name == m) := by
  exact ⟨getRowGo_eq_find? n d.Rows, getGraphGo_eq_find? m r.Graphs⟩

/-- C9: GetDashBoard compares group-kinds by plain string equality with no
special case for the empty string: when some dashboard in the list has an
unset (empty) group-kind, requesting the empty string returns the first such
dashboard rather than the fallback dashboard. -/
theorem c9_empty_groupKind_plain_equality (a : Application)
    (h : (a.Dashboards.find? (fun d => d.GroupKind == "")).isSome = true) :
    a.GetDashBoard "" = a.Dashboards.find? (fun d => d.GroupKind == "") := by
  unfold Application.GetDashBoard
  rw [getDashGo_eq_find?]
  cases hf : a.Dashboards.find? (fun d => d.GroupKind == "") with
  | some dash => simp
  | none => rw [hf] at h; simp at h

/-- C9 witness: on a concrete application holding a dashboard with empty
group-kind and a distinct fallback dashboard, the empty-string request
returns the empty-group-kind dashboard. -/
theorem c9_empty_groupKind_witness :
    (app9.Dashboards.find? (fun d => d.GroupKind == "")).isSome = true ∧
    app9.GetDashBoard "" = app9.Dashboards.find? (fun d => d.GroupKind == "") := by
  exact ⟨by decide, c9_empty_groupKind_plain_equality app9 (by decide)⟩

/-- C10: when the very first phase — parsing the raw bytes as a generic
document — fails, the load call returns exactly the zero Root Configuration
(both backend pointers nil) together with the error. -/
theorem c10_parse_failure_returns_zero_config (e : String) (env : Env) :
    loadConfigs (.error e) env = (O11yConfig.zero, some (.parse e)) ∧
    O11yConfig.zero.Prometheus = none ∧ O11yConfig.zero.Wavefront = none :=
  ⟨rfl, rfl, rfl⟩

/-- C7: the document decode phase fails with a decode error exactly when the
input bytes are not well-formed structured data (including a non-object top
level) or decoding the generic tree into the schema fails; the error is
surfaced to the caller as that phase's error — a failing parse returns its
own message unchanged, and the overlay phase never masks a document decode
failure. -/
theorem c7_doc_decode_error_iff (j : Json) (env : Env) (e : String) :
    isDocError (loadConfigs (.ok j) env).2 = docDecodeFails j ∧
    loadConfigs (.error e) env = (O11yConfig.zero, some (.parse e)) := by
  refine ⟨?_, rfl⟩
  cases j with
  | obj fs =>
    show isDocError (loadConfigs (.ok (.obj fs)) env).2 = (decodeO11y false O11yConfig.zero (.obj fs)).2
    rw [loadConfigs]
    cases h1 : (decodeO11y false O11yConfig.zero (.obj fs)).2 with
    | true => simp [h1, isDocError]
    | false =>
      simp only [h1, if_false, Bool.false_eq_true]
      cases h2 : (decodeO11y true (decodeO11y false O11yConfig.zero (.obj fs)).1
          (viperSettings (.obj fs) env)).2 <;> simp [h2, isDocError]
  | null => rfl
  | b v => rfl
  | num n => rfl
  | str s => rfl
  | arr xs => rfl

/-- C4 counterexample: on this document the json-tag decode fails while
decoding the wavefront entry, yet the load call hands back the
partially-populated configuration (prometheus already decoded, one
application named "a") alongside the error — not an empty value. -/
theorem c4_counterexample :
    (loadConfigs (.ok doc4) []).2 = some .jsonDecode ∧
    (loadConfigs (.ok doc4) []).1 ≠ O11yConfig.zero ∧
    (loadConfigs (.ok doc4) []).1.Prometheus =
      some ⟨[{ Application.zero with Name := "a" }], provider.zero⟩ := by
  refine ⟨by decide, by decide, by decide⟩

/-- C4 amended: only a failure of the generic parse guarantees that no
partial configuration accompanies the error (the zero value is returned);
when a later decode phase fails, the load call returns the configuration as
populated so far alongside the error, and the caller must treat it as
unusable. -/
theorem c4_amended_no_partial_only_on_parse_failure (e : String) (env : Env) :
    loadConfigs (.error e) env = (O11yConfig.zero, some (.parse e)) := rfl

/-- C8 counterexample: GetDashBoard is NOT the only lookup that can return an
explicit not-found result — GetRow and GetGraph also return nil when nothing
matches, refuting the uniqueness part of the claim at concrete inputs. -/
theorem c8_counterexample :
    dash8.GetRow "missing" = none ∧ row8.GetGraph "missing" = none := by decide

/-- C8 amended: no lookup operation can fail — all four are total functions
and absence is communicated by a nil/empty/default result: GetRow and
GetGraph return nil exactly when no name matches, GetDashBoard returns nil
exactly when no group-kind matches and the fallback is unset, and GetApp
always yields an Application (a member of the list or the zero value), never
a not-found signal. -/
theorem c8_amended_lookups_never_error (d : Dashboard) (r : Row) (a : Application)
    (p : MetricsConfigProvider) (n m gk nm : String) :
    (d.GetRow n = none ↔ ∀ row ∈ d.Rows, ¬ row.Name = n) ∧
    (r.GetGraph m = none ↔ ∀ g ∈ r.Graphs, ¬ g.Name = m) ∧
    (a.GetDashBoard gk = none ↔
      (a.DefaultDashboard = none ∧ ∀ dd ∈ a.Dashboards, ¬ dd.GroupKind = gk)) ∧
    ((∃ x ∈ p.Applications, p.GetApp nm = x) ∨ p.GetApp nm = Application.zero) := by
  refine ⟨?_, ?_, ?_, ?_⟩
  · rw [Dashboard.GetRow, getRowGo_eq_find?, List.find?_eq_none]
    simp
  · rw [Row.GetGraph, getGraphGo_eq_find?, List.find?_eq_none]
    simp
  · rw [Application.GetDashBoard, getDashGo_eq_find?]
    cases hf : a.Dashboards.find? (fun dd => dd.GroupKind == gk) with
    | some dash =>
      simp only [reduceCtorEq, false_iff, not_and]
      intro _ hall
      have hmem := List.mem_of_find?_eq_some hf
      have := List.find?_some hf
      simp at this
      exact hall dash hmem this
    | none =>
      rw [List.find?_eq_none] at hf
      simp only [true_iff, iff_self_and]
      intro _
      intro dd hdd
      have := hf dd hdd
      simpa using this
  · rw [MetricsConfigProvider.GetApp, getAppGo_eq]
    cases hf : p.Applications.find? (fun x => x.Name == nm) with
    | some x => exact Or.inl ⟨x, List.mem_of_find?_eq_some hf, rfl⟩
    | none =>
      cases hl : (p.Applications.filter (fun x => x.Default)).getLast? with
      | some x =>
        refine Or.inl ⟨x, ?_, by simp [hl]⟩
        exact List.mem_of_mem_filter (mem_of_getLast?_eq_some hl)
      | none => simp [hl]

/-! ## The two decode phases: counterexample and agreement machinery -/

theorem decodeInt_strict_shapes {init : Int} {j : Json}
    (h : (decodeInt false init j).2 = false) :
    viperLower j = j ∧ decodeInt true init j = decodeInt false init j := by
  cases j with
  | null => exact ⟨rfl, rfl⟩
  | num n => exact ⟨rfl, rfl⟩
  | str s => simp [decodeInt] at h
  | b v => simp [decodeInt] at h
  | arr xs => simp [decodeInt] at h
  | obj fs => simp [decodeInt] at h

mutual
theorem overlayEnv_nil (path : List String) : ∀ j : Json, overlayEnv [] path j = j
  | .null => rfl
  | .b v => rfl
  | .num n => rfl
  | .str s => rfl
  | .arr xs => rfl
  | .obj fs => by
    rw [overlayEnv, overlayEnvFields_nil path fs]

theorem overlayEnvFields_nil (path : List String) :
    ∀ fs : List (String × Json), overlayEnvFields [] path fs = fs
  | [] => rfl
  | (k, v) :: rest => by
    rw [overlayEnvFields, overlayEnv_nil (path ++ [k]) v, overlayEnvFields_nil path rest]
end

mutual
theorem pruneEmpty_id_of : ∀ j : Json, noEmptyObjB j = true → pruneEmpty j = j
  | .null, _ => rfl
  | .b v, _ => rfl
  | .num n, _ => rfl
  | .str s, _ => rfl
  | .arr xs, _ => rfl
  | .obj fs, h => by
    rw [pruneEmpty, pruneEmptyFields_id_of fs h]

theorem pruneEmptyFields_id_of :
    ∀ fs : List (String × Json), noEmptyObjFieldsB fs = true → pruneEmptyFields fs = fs
  | [], _ => rfl
  | (k, v) :: rest, h => by
    rw [noEmptyObjFieldsB, Bool.and_eq_true, Bool.and_eq_true] at h
    obtain ⟨⟨hne, hv⟩, hrest⟩ := h
    rw [pruneEmptyFields, pruneEmpty_id_of v hv, pruneEmptyFields_id_of rest hrest]
    cases v with
    | null => rfl
    | b x => rfl
    | num n => rfl
    | str s => rfl
    | arr xs => rfl
    | obj vfs =>
      cases vfs with
      | nil => simp [isEmptyObj] at hne
      | cons a as => rfl
end

theorem isEmptyObj_viperLower : ∀ j : Json, isEmptyObj (viperLower j) = isEmptyObj j
  | .null => rfl
  | .b _ => rfl
  | .num _ => rfl
  | .str _ => rfl
  | .arr _ => rfl
  | .obj [] => rfl
  | .obj ((_k, _v) :: _fs) => rfl

mutual
theorem noEmptyObjB_viperLower : ∀ j : Json, noEmptyObjB (viperLower j) = noEmptyObjB j
  | .null => rfl
  | .b _ => rfl
  | .num _ => rfl
  | .str _ => rfl
  | .arr _ => rfl
  | .obj fs => noEmptyObjFieldsB_viperLower fs

theorem noEmptyObjFieldsB_viperLower :
    ∀ fs : List (String × Json),
      noEmptyObjFieldsB (viperLowerFields fs) = noEmptyObjFieldsB fs
  | [] => rfl
  | (k, v) :: rest => by
    show (! isEmptyObj (viperLower v) && noEmptyObjB (viperLower v) &&
        noEmptyObjFieldsB (viperLowerFields rest)) =
      (! isEmptyObj v && noEmptyObjB v && noEmptyObjFieldsB rest)
    rw [isEmptyObj_viperLower v, noEmptyObjB_viperLower v, noEmptyObjFieldsB_viperLower rest]
end

/-- The flattening pass is observable in the load: on the well-formed
document carrying an empty prometheus map, the document decode allocates a
zero-valued backend while the override-name decode — whose settings tree
has lost the empty subtree — leaves the backend pointer nil. -/
theorem pruneEmpty_drops_empty_backend :
    (docDecodePhase (.obj [("prometheus", .obj [])])).1.Prometheus =
      some MetricsConfigProvider.zero ∧
    (overrideDecodePhase (.obj [("prometheus", .obj [])])).1.Prometheus = none := by
  refine ⟨by decide, by decide⟩

theorem envLookup_single_ne {K v name : String} (h : ¬ name = K) :
    envLookup [(K, v)] name = none := by
  have hb : (K == name) = false := by
    rw [beq_eq_false_iff_ne]
    exact fun hh => h hh.symm
  simp [envLookup, List.find?, hb]

theorem pathEnvKey_append (path : List String) (k : String) (h : path ≠ []) :
    pathEnvKey (path ++ [k]) = pathEnvKey path ++ "__" ++ upperStr k := by
  induction path with
  | nil => cases h rfl
  | cons a rest ih =>
    cases rest with
    | nil => rfl
    | cons b rest2 =>
      have ih' := ih (by simp)
      simp only [List.cons_append] at ih'
      simp only [List.cons_append, pathEnvKey, List.append_eq]
      rw [ih']
      simp [String.append_assoc]

mutual
theorem overlayEnv_id_of (K v : String) (path : List String)
    (h1 : ¬ pathEnvKey path = K)
    (h2 : ∀ t, ¬ (pathEnvKey path ++ "__" ++ t = K))
    (hpath : path ≠ []) : ∀ j : Json, overlayEnv [(K, v)] path j = j
  | .null => by
    unfold overlayEnv
    rw [envLookup_single_ne h1]
  | .b x => by
    unfold overlayEnv
    rw [envLookup_single_ne h1]
  | .num n => by
    unfold overlayEnv
    rw [envLookup_single_ne h1]
  | .str s => by
    unfold overlayEnv
    rw [envLookup_single_ne h1]
  | .arr xs => by
    unfold overlayEnv
    rw [envLookup_single_ne h1]
  | .obj fs => by
    unfold overlayEnv
    rw [overlayEnvFields_id_of K v path h2 hpath fs]

theorem overlayEnvFields_id_of (K v : String) (path : List String)
    (h2 : ∀ t, ¬ (pathEnvKey path ++ "__" ++ t = K))
    (hpath : path ≠ []) :
    ∀ fs : List (String × Json), overlayEnvFields [(K, v)] path fs = fs
  | [] => rfl
  | (k, w) :: rest => by
    rw [overlayEnvFields]
    rw [overlayEnv_id_of K v (path ++ [k])
      (by rw [pathEnvKey_append path k hpath]; exact h2 (upperStr k))
      (by
        intro t
        rw [pathEnvKey_append path k hpath,
          String.append_assoc (pathEnvKey path ++ "__" ++ upperStr k) "__" t,
          String.append_assoc (pathEnvKey path ++ "__") (upperStr k) ("__" ++ t)]
        exact h2 (upperStr k ++ ("__" ++ t)))
      (by simp) w]
    rw [overlayEnvFields_id_of K v path h2 hpath rest]
end

end ConfigModel
